import Mathlib

/-!
Shallow embedding of `src/email_parser.py` (JulesNotif).

Strings are modelled as Lean `String` (a list of unicode code points, matching
Python `str` indexing/slicing by code points).  The Python regular expressions
used by the parser are small: every quantifier there ranges over a single
character class, and every alternation is between literal words.  We therefore
embed them as sequences of `RItem`s and give a backtracking matcher with
Python/PCRE semantics (leftmost match, greedy quantifiers, alternatives tried
in pattern order).  `re.findall` (non-overlapping, left to right, advancing one
position past an empty match) and anchored `re.sub` are implemented on top.

The two calls into the third-party BeautifulSoup library (`_html_to_text` and
the anchor scan of `_extract_jules_link`) are modelled with oracle parameters:
`ht : String → Option String` is the text extraction (with `none` for a parse
failure, i.e. a raised exception) and `hl : String → Option (List String)`
yields the anchor `href`s in document order (`none` again a parse failure).
All theorems about the whole parser quantify over these oracles.
-/

set_option maxRecDepth 4000

namespace JulesNotif

/-- Python whitespace (`\s`, `str.strip`) restricted to the ASCII range, the
only characters the scanning texts of this development contain. -/
def isPySpace (c : Char) : Bool :=
  c == ' ' || c == '\t' || c == '\n' || c == '\r' || c == '\x0b' || c == '\x0c'

/-- Python `\w` (ASCII range): letters, digits and underscore. -/
def isWordChar (c : Char) : Bool :=
  (('a' ≤ c && c ≤ 'z') || ('A' ≤ c && c ≤ 'Z') || ('0' ≤ c && c ≤ '9') || c == '_')

/-- The repo-token character class `[a-zA-Z0-9_.-]` of `_extract_repo`. -/
def isTokChar (c : Char) : Bool :=
  (('a' ≤ c && c ≤ 'z') || ('A' ≤ c && c ≤ 'Z') || ('0' ≤ c && c ≤ '9')
    || c == '_' || c == '.' || c == '-')

/-- Python `str.lower` (ASCII range). -/
def pyLower (s : String) : String := ⟨s.data.map Char.toLower⟩

/-- Python `str.strip()` on a character list. -/
def pyStripList (s : List Char) : List Char :=
  ((s.dropWhile isPySpace).reverse.dropWhile isPySpace).reverse

/-- Python `str.strip()`. -/
def pyStrip (s : String) : String := ⟨pyStripList s.data⟩

/-- Case-insensitive literal prefix test: `pat` is stored lowercase and is
compared against `s` lowered character by character (`re.IGNORECASE`). -/
def ciPrefix : List Char → List Char → Bool
  | [], _ => true
  | _ :: _, [] => false
  | p :: ps, c :: cs => p == c.toLower && ciPrefix ps cs

/-- Substring containment, Python's `needle in haystack`. -/
def containsSub (needle : List Char) : List Char → Bool
  | [] => needle.isEmpty
  | c :: cs => needle.isPrefixOf (c :: cs) || containsSub needle cs

/-- One element of an embedded regular expression: a case-insensitive literal
word, a single character from a class, an optional single character (greedy),
a character class repeated at least `min` times (greedy, unbounded), or an
alternation between literal words tried in order. -/
inductive RItem where
  | ilit (word : List Char)
  | cls (p : Char → Bool)
  | opt (p : Char → Bool)
  | rep (p : Char → Bool) (min : Nat)
  | alts (words : List (List Char))

/-- Candidate repetition counts for a greedy `rep`, longest first:
`run, run-1, …, min` (empty when `run < min`). -/
def repOptions (min run : Nat) : List Nat :=
  (List.range (run + 1 - min)).map (fun i => run - i)

/-- All remainders of `s` after matching the item sequence at its front, in
backtracking preference order (greedy quantifiers longest first, alternatives
in pattern order).  The head of the list is the remainder of the match a
Python regex engine would pick. -/
def remsAfter : List RItem → List Char → List (List Char)
  | [], s => [s]
  | RItem.ilit w :: rest, s =>
      if ciPrefix w s then remsAfter rest (s.drop w.length) else []
  | RItem.cls p :: rest, s =>
      match s with
      | [] => []
      | c :: s' => if p c then remsAfter rest s' else []
  | RItem.opt p :: rest, s =>
      (match s with
       | [] => []
       | c :: s' => if p c then remsAfter rest s' else []) ++ remsAfter rest s
  | RItem.rep p min :: rest, s =>
      (repOptions min (s.takeWhile p).length).flatMap (fun n => remsAfter rest (s.drop n))
  | RItem.alts ws :: rest, s =>
      ws.flatMap (fun w => if ciPrefix w s then remsAfter rest (s.drop w.length) else [])

/-- Remainder after the leftmost-first match of the items at the front of `s`,
`none` when the item sequence does not match there. -/
def matchHere (items : List RItem) (s : List Char) : Option (List Char) :=
  (remsAfter items s).head?

/-- `re.findall` worker: scan left to right, record each non-overlapping match
(the consumed characters), advance one position past an empty match.  `fuel`
bounds the iteration count; `s.length + 1` steps always suffice because every
step either consumes a matched nonempty prefix or advances one character. -/
def findAllAux (items : List RItem) : Nat → List Char → List (List Char)
  | 0, _ => []
  | fuel + 1, s =>
      match matchHere items s with
      | some rem =>
          if rem.length < s.length then
            s.take (s.length - rem.length) :: findAllAux items fuel rem
          else
            [] :: (match s with
                   | [] => []
                   | _ :: s' => findAllAux items fuel s')
      | none =>
          match s with
          | [] => []
          | _ :: s' => findAllAux items fuel s'

/-- `re.findall pattern s`: the list of matched substrings. -/
def findAll (items : List RItem) (s : List Char) : List (List Char) :=
  findAllAux items (s.length + 1) s

/-- `len(re.findall pattern s)`, the score contribution of one pattern in
`_detect_status`. -/
def countMatches (items : List RItem) (s : List Char) : Nat :=
  (findAll items s).length

/-- `re.sub` for a pattern anchored at `^` (no `MULTILINE`): such a pattern can
only match at position 0, so at most the one leading match is removed. -/
def subStart (items : List RItem) (s : String) : String :=
  match matchHere items s.data with
  | some rem => ⟨rem⟩
  | none => s

/-- `re.sub pattern repl s` for an unanchored pattern whose matches are always
nonempty: replace each non-overlapping match left to right. -/
def subAllAux (items : List RItem) (repl : List Char) : Nat → List Char → List Char
  | 0, s => s
  | fuel + 1, s =>
      match matchHere items s with
      | some rem =>
          if rem.length < s.length then repl ++ subAllAux items repl fuel rem
          else
            match s with
            | [] => repl
            | c :: s' => c :: subAllAux items repl fuel s'
      | none =>
          match s with
          | [] => []
          | c :: s' => c :: subAllAux items repl fuel s'

/-- `re.sub pattern repl s`. -/
def subAll (items : List RItem) (repl : List Char) (s : String) : String :=
  ⟨subAllAux items repl (s.data.length + 1) s.data⟩

/-- Worker for `pyReplace`: each step consumes at least one character, so a
fuel of `s.length` suffices. -/
def pyReplaceAux (p0 : Char) (ps repl : List Char) : Nat → List Char → List Char
  | 0, s => s
  | _, [] => []
  | fuel + 1, c :: s =>
      if (p0 :: ps).isPrefixOf (c :: s) then
        repl ++ pyReplaceAux p0 ps repl fuel (s.drop ps.length)
      else c :: pyReplaceAux p0 ps repl fuel s

/-- Python `str.replace(pat, repl)` for a nonempty `pat`: replace every
non-overlapping occurrence left to right. -/
def pyReplace (p0 : Char) (ps repl : List Char) (s : List Char) : List Char :=
  pyReplaceAux p0 ps repl s.length s

/-- `re.search` for a pattern of shape `pre (group) post` with one capturing
group: at each start position try, in backtracking order, every way to split
the match between `pre`, the group and `post`; the first success is the
engine's match and the captured group is returned. -/
def groupSearchAt (pre grp post : List RItem) (s : List Char) : Option (List Char) :=
  ((remsAfter pre s).flatMap fun r1 =>
    (remsAfter grp r1).flatMap fun r2 =>
      (remsAfter post r2).map fun _ => r1.take (r1.length - r2.length)).head?

/-- Leftmost `re.search` with one capturing group: try `groupSearchAt` at each
position left to right. -/
def groupSearch (pre grp post : List RItem) : List Char → Option (List Char)
  | [] => groupSearchAt pre grp post []
  | c :: s' =>
      match groupSearchAt pre grp post (c :: s') with
      | some g => some g
      | none => groupSearch pre grp post s'

/-! ### The pattern tables of `email_parser.py` -/

/-- Shorthand for a case-insensitive literal word pattern element. -/
def w (s : String) : RItem := RItem.ilit s.data

/-- `\s+` -/
def sp1 : RItem := RItem.rep isPySpace 1

/-- `\s*` -/
def sp0 : RItem := RItem.rep isPySpace 0

/-- `STATUS_PATTERNS`: the ordered table mapping each status category to its
ordered list of regex patterns, exactly as declared in the source. -/
def STATUS_PATTERNS : List (String × List (List RItem)) :=
  [ ("completed",
      [ [w "completed"], [w "finished"], [w "done"], [w "merged"],
        [w "task", sp1, w "complete"], [w "successfully"] ]),
    ("failed",
      [ [w "failed"], [w "error"], [w "unable"],
        [w "could", sp0, w "n", RItem.cls (fun c => c.toLower == 'o' || c == '\''), w "t"],
        [w "unsuccessful"] ]),
    ("needs_review",
      [ [w "review"], [w "waiting"], [w "pending"],
        [w "ready", sp1, w "for", sp1, w "review"],
        [w "pull", sp1, w "request"],
        [w "change", RItem.opt (fun c => c.toLower == 's'), sp1, w "ready"] ]),
    ("in_progress",
      [ [w "started"], [w "working"], [w "in", sp1, w "progress"],
        [w "processing"], [w "running"] ]),
    ("cancelled",
      [ [w "cancel", RItem.opt (fun c => c.toLower == 'l'), w "ed"],
        [w "stopped"], [w "aborted"] ]) ]

/-- Total `re.findall` count over one category's pattern list. -/
def catScore (pats : List (List RItem)) (text : List Char) : Nat :=
  (pats.map (fun p => countMatches p text)).sum

/-- The owner/name capturing group `([a-zA-Z0-9_.-]+/[a-zA-Z0-9_.-]+)`. -/
def repoGroup : List RItem :=
  [RItem.rep isTokChar 1, RItem.ilit ['/'], RItem.rep isTokChar 1]

/-- The label part `(?:repository|repo)[:\s]+` of the first repo pattern. -/
def repoLabelItems : List RItem :=
  [RItem.alts [("repository").data, ("repo").data],
   RItem.rep (fun c => c == ':' || isPySpace c) 1]

/-- The three body-text repo patterns of `_extract_repo`, split as
`(pre, group, post)` around their capturing group, in source order. -/
def repo_patterns : List (List RItem × List RItem × List RItem) :=
  [ (repoLabelItems, repoGroup, []),
    ([w "github.com/"], repoGroup, []),
    ([], repoGroup, [sp1, w "repository"]) ]

/-- The URL pattern `https?://[^\s<>\"')\]]+` of `_extract_jules_link`. -/
def urlPattern : List RItem :=
  [w "http", RItem.opt (fun c => c.toLower == 's'), w "://",
   RItem.rep (fun c =>
     !(isPySpace c || c == '<' || c == '>' || c == '"' || c == '\'' ||
       c == ')' || c == ']')) 1]

/-- The entity pattern `&\w+;` of `_build_summary`. -/
def entityPattern : List RItem :=
  [RItem.ilit ['&'], RItem.rep isWordChar 1, RItem.ilit [';']]

/-- `^\s*\[Jules\]\s*` -/
def cleanPat1 : List RItem := [sp0, w "[jules]", sp0]

/-- `^\s*Jules:\s*` -/
def cleanPat2 : List RItem := [sp0, w "jules:", sp0]

/-- `^\s*Google Jules\s*[-–—:]\s*` -/
def cleanPat3 : List RItem :=
  [sp0, w "google jules", sp0,
   RItem.cls (fun c => c == '-' || c == '–' || c == '—' || c == ':'), sp0]

/-! ### The parser functions -/

/-- Input shape of `GmailClient.get_email_content()` as consumed by
`parse_jules_email` (each field defaulted to `""` by `.get`). -/
structure RawEmail where
  subject : String
  snippet : String
  body_html : String
  body_text : String
deriving DecidableEq

/-- Output record of `parse_jules_email`. -/
structure ParsedNotification where
  status : String
  title : String
  repo : String
  summary : String
  link : String
  raw_subject : String
deriving DecidableEq

/-- `_html_to_text(html)`: BeautifulSoup text extraction (the oracle `ht`),
then collapse runs of 3+ newlines to two and strip; a parse failure
(`ht html = none`, the `except` branch) returns the raw html unmodified. -/
def html_to_text (ht : String → Option String) (html : String) : String :=
  match ht html with
  | some text => pyStrip (subAll [RItem.rep (fun c => c == '\n') 3] ('\n' :: ['\n']) text)
  | none => html

/-- Fold of Python's `max(scores, key=scores.get)`: keep the current best and
replace it only on a strictly greater score, so the first entry attaining the
maximum wins. -/
def foldBest (init : String × Nat) (l : List (String × Nat)) : String × Nat :=
  l.foldl (fun best q => if best.2 < q.2 then q else best) init

/-- Category selection of `_detect_status` from the scored table: drop the
zero scores (only positive scores enter the `scores` dict), return
`"unknown"` on an empty dict, else the first key with the maximal score. -/
def detectFromScores (scored : List (String × Nat)) : String :=
  match scored.filter (fun e => 0 < e.2) with
  | [] => "unknown"
  | e :: rest => (foldBest e rest).1

/-- `_detect_status(text)`. -/
def detect_status (text : String) : String :=
  detectFromScores (STATUS_PATTERNS.map (fun e => (e.1, catScore e.2 text.data)))

/-- `_clean_subject(subject)`: the three anchored `re.sub` calls in sequence,
then `.strip() or "Jules Notification"`. -/
def clean_subject (subject : String) : String :=
  let s1 := subStart cleanPat1 subject
  let s2 := subStart cleanPat2 s1
  let s3 := subStart cleanPat3 s2
  let t := pyStrip s3
  if t = "" then "Jules Notification" else t

/-- `_extract_repo(text, subject)`: the three body-text patterns in priority
order, then the subject fallback with its `"/" in candidate` and
`not candidate.startswith("http")` filter. -/
def extract_repo (text subject : String) : String :=
  match (repo_patterns.map (fun p => groupSearch p.1 p.2.1 p.2.2 text.data)).reduceOption.head? with
  | some g => ⟨g⟩
  | none =>
      match groupSearch [] repoGroup [] subject.data with
      | some cand =>
          if cand.contains '/' && !(("http").data.isPrefixOf cand) then ⟨cand⟩ else ""
      | none => ""

/-- `_build_summary(snippet, body_text)`. -/
def build_summary (snippet body_text : String) : String :=
  if snippet ≠ "" then
    let s := pyReplace '&' ("#39;").data ['\''] snippet.data
    let s := pyReplace '&' ("quot;").data ['"'] s
    let s := (subAll entityPattern [] ⟨s⟩).data
    ⟨s.take 300⟩
  else if body_text ≠ "" then
    let lines := (body_text.data.splitOn '\n').map pyStripList
    let lines := lines.filter (fun l => l ≠ [])
    ⟨(List.intercalate [' '] (lines.take 3)).take 300⟩
  else "New notification from Jules"

/-- The anchor-scan predicate of `_extract_jules_link`:
`"jules" in href.lower() or "github.com" in href.lower()`. -/
def linkPred (href : String) : Bool :=
  containsSub ("jules").data (pyLower href).data ||
    containsSub ("github.com").data (pyLower href).data

/-- `_extract_jules_link(html, text)`: when `html` is nonempty, scan the
anchors the oracle `hl` yields in document order for the first matching href
(a parse failure `hl html = none` is swallowed); otherwise, and when no anchor
matched, scan `text` for URL-pattern matches left to right and return the
first matching one; else `""`. -/
def extract_jules_link (hl : String → Option (List String)) (html text : String) : String :=
  let fromHtml : Option String :=
    if html ≠ "" then
      match hl html with
      | some hrefs => hrefs.find? linkPred
      | none => none
    else none
  match fromHtml with
  | some href => href
  | none =>
      match (findAll urlPattern text.data).find? (fun u => linkPred ⟨u⟩) with
      | some u => ⟨u⟩
      | none => ""

/-- `parse_jules_email(email_data)`, with the BeautifulSoup calls of
`_html_to_text` and `_extract_jules_link` supplied by the oracles `ht` and
`hl`. -/
def parse_jules_email (ht : String → Option String) (hl : String → Option (List String))
    (e : RawEmail) : ParsedNotification :=
  let body_plain := if e.body_html ≠ "" then html_to_text ht e.body_html else e.body_text
  let full_text := pyLower (e.subject ++ " " ++ e.snippet ++ " " ++ body_plain)
  { status := detect_status full_text
    title := clean_subject e.subject
    repo := extract_repo full_text e.subject
    summary := build_summary e.snippet body_plain
    link := extract_jules_link hl e.body_html body_plain
    raw_subject := e.subject }

/-! ### Helper definitions for the statements -/

/-- The declared category order of `STATUS_PATTERNS` (Python dict insertion
order). -/
def STATUS_ORDER : List String :=
  ["completed", "failed", "needs_review", "in_progress", "cancelled"]

/-- The total keyword-match score of one named category on a text. -/
def statusScore (c : String) (text : String) : Nat :=
  match STATUS_PATTERNS.find? (fun e => e.1 == c) with
  | some e => catScore e.2 text.data
  | none => 0

/-! ### Helper lemmas -/

theorem length_pos_of_ne_empty (s : String) (h : s ≠ "") : 0 < s.length := by
  rcases s with ⟨_ | ⟨c, cs⟩⟩
  · exact absurd rfl h
  · simp [String.length]

theorem foldBest_nil (init : String × Nat) : foldBest init [] = init := rfl

theorem foldBest_cons (init q : String × Nat) (t : List (String × Nat)) :
    foldBest init (q :: t) = foldBest (if init.2 < q.2 then q else init) t := rfl

theorem foldBest_eq_self (init : String × Nat) (l : List (String × Nat))
    (h : ∀ q ∈ l, q.2 ≤ init.2) : foldBest init l = init := by
  induction l with
  | nil => rfl
  | cons q t ih =>
      rw [foldBest_cons, if_neg (not_lt.2 (h q (by simp)))]
      exact ih (fun r hr => h r (by simp [hr]))

theorem foldBest_sq_lt (init : String × Nat) (l : List (String × Nat)) (s : Nat)
    (hi : init.2 < s) (h : ∀ q ∈ l, q.2 < s) : (foldBest init l).2 < s := by
  induction l generalizing init with
  | nil => exact hi
  | cons q t ih =>
      rw [foldBest_cons]
      refine ih _ ?_ (fun r hr => h r (by simp [hr]))
      split
      · exact h q (by simp)
      · exact hi

theorem foldBest_append (init : String × Nat) (A B : List (String × Nat)) :
    foldBest init (A ++ B) = foldBest (foldBest init A) B := by
  simp [foldBest, List.foldl_append]

theorem foldBest_pin (init : String × Nat) (A B : List (String × Nat))
    (c : String) (s : Nat) (hi : init.2 < s)
    (hA : ∀ q ∈ A, q.2 < s) (hB : ∀ q ∈ B, q.2 ≤ s) :
    foldBest init (A ++ (c, s) :: B) = (c, s) := by
  rw [foldBest_append, foldBest_cons, if_pos (foldBest_sq_lt init A s hi hA)]
  exact foldBest_eq_self _ _ hB

theorem foldBest_mem (init : String × Nat) (l : List (String × Nat)) :
    foldBest init l ∈ init :: l := by
  induction l generalizing init with
  | nil => simp [foldBest_nil]
  | cons q t ih =>
      rw [foldBest_cons]
      have := ih (if init.2 < q.2 then q else init)
      rcases List.mem_cons.1 this with h | h
      · rw [h]
        split
        · simp
        · simp
      · simp [h]

/-- The selection rule of `_detect_status`: the first category attaining the
maximal positive score wins (categories before it strictly below, categories
after it at most equal). -/
theorem detectFromScores_split (L₁ L₂ : List (String × Nat)) (c : String) (s : Nat)
    (hs : 0 < s) (hA : ∀ e ∈ L₁, e.2 < s) (hB : ∀ e ∈ L₂, e.2 ≤ s) :
    detectFromScores (L₁ ++ (c, s) :: L₂) = c := by
  unfold detectFromScores
  rw [List.filter_append, List.filter_cons_of_pos (by simpa using hs)]
  rcases hL : L₁.filter (fun e => 0 < e.2) with _ | ⟨e₁, t⟩
  · simp only [hL, List.nil_append]
    rw [foldBest_eq_self _ _ (fun q hq => hB q (List.mem_of_mem_filter hq))]
  · simp only [hL, List.cons_append]
    have he₁ : e₁ ∈ L₁ := List.mem_of_mem_filter (hL ▸ List.mem_cons_self e₁ t)
    have ht : ∀ q ∈ t, q ∈ L₁ := fun q hq =>
      List.mem_of_mem_filter (hL ▸ List.mem_cons_of_mem e₁ hq)
    rw [foldBest_pin e₁ t _ c s (hA e₁ he₁) (fun q hq => hA q (ht q hq))
      (fun q hq => hB q (List.mem_of_mem_filter hq))]

theorem detectFromScores_mem (scored : List (String × Nat)) :
    detectFromScores scored = "unknown" ∨ detectFromScores scored ∈ scored.map (·.1) := by
  unfold detectFromScores
  rcases hL : scored.filter (fun e => 0 < e.2) with _ | ⟨e₁, t⟩
  · rw [hL]
    exact Or.inl rfl
  · rw [hL]
    right
    have hsub : foldBest e₁ t ∈ scored := by
      refine List.mem_of_mem_filter (p := fun e => 0 < e.2) ?_
      rw [hL]
      exact foldBest_mem e₁ t
    exact List.mem_map_of_mem (·.1) hsub

theorem mk_take_length_le (l : List Char) (n : Nat) : (String.mk (l.take n)).length ≤ n := by
  show (l.take n).length ≤ n
  rw [List.length_take]
  exact min_le_left n l.length

theorem build_summary_length_le (snippet body_text : String) :
    (build_summary snippet body_text).length ≤ 300 := by
  unfold build_summary
  split
  · exact mk_take_length_le _ 300
  · split
    · exact mk_take_length_le _ 300
    · decide

/-! ### The claims -/

/-- C7: for every input, the summary returned by `_build_summary` has length at
most 300 characters, in each of its three branches (capped entity-decoded
snippet, capped join of the first three non-empty trimmed body lines, or the
fixed fallback literal). -/
theorem claim_C7 (snippet body_text : String) :
    (build_summary snippet body_text).length ≤ 300 :=
  build_summary_length_le snippet body_text

/-- C8: on the all-empty `RawEmail`, `parse_jules_email` returns
status `"unknown"`, the fallback title `"Jules Notification"`, empty repo,
the fallback summary `"New notification from Jules"`, empty link, and empty
raw subject, for every choice of the markup oracles and with no failure
outcome. -/
theorem claim_C8 (ht : String → Option String) (hl : String → Option (List String)) :
    parse_jules_email ht hl ⟨"", "", "", ""⟩ =
      { status := "unknown", title := "Jules Notification", repo := "",
        summary := "New notification from Jules", link := "", raw_subject := "" } := by
  rfl

/-- C9: `parse_jules_email` is deterministic — two invocations on an identical
`RawEmail` (with the same markup oracles, there being no other state) return
identical `ParsedNotification` records. -/
theorem claim_C9 (ht : String → Option String) (hl : String → Option (List String))
    (e : RawEmail) (r₁ r₂ : ParsedNotification)
    (h₁ : parse_jules_email ht hl e = r₁) (h₂ : parse_jules_email ht hl e = r₂) :
    r₁ = r₂ := h₁ ▸ h₂

/-- C9 witness: determinism applied to a concrete email. -/
theorem claim_C9_witness :
    parse_jules_email (fun _ => none) (fun _ => none) ⟨"x", "", "", ""⟩ =
      parse_jules_email (fun _ => none) (fun _ => none) ⟨"x", "", "", ""⟩ :=
  claim_C9 (fun _ => none) (fun _ => none) ⟨"x", "", "", ""⟩ _ _ rfl rfl

/-- C10: the subject fallback of `_extract_repo` accepts owner/name tokens
embedded inside URLs: on the email whose subject is
`"See https://jules.google.com/task/123"` (and all other fields empty, so no
label and no github.com URL occur anywhere), the extracted repo is the
post-scheme fragment `"jules.google.com/task"` — the match begins after
`"https://"`, hence does not start with `"http"` and survives the
startswith filter. -/
theorem claim_C10 (ht : String → Option String) (hl : String → Option (List String)) :
    (parse_jules_email ht hl ⟨"See https://jules.google.com/task/123", "", "", ""⟩).repo =
      "jules.google.com/task" := by
  rfl

/-- The `RawEmail` of the spec's first scenario (claim C1). -/
def c1_email : RawEmail :=
  { subject := "[Jules] Task completed for your PR"
    snippet := "Your task finished successfully. Repository: octo/cat. See https://github.com/octo/cat/pull/5"
    body_html := ""
    body_text := "" }

/-- C1 fails as stated: on the scenario email the code captures the trailing
period into the repo (`"octo/cat."`, since `.` is in the token charset and the
greedy match runs up to the following space) and returns an empty link (the
URL regex fallback scans only the normalized body, which is empty here). -/
theorem claim_C1_counterexample :
    (parse_jules_email (fun _ => none) (fun _ => none) c1_email).repo ≠ "octo/cat" ∧
    (parse_jules_email (fun _ => none) (fun _ => none) c1_email).link ≠
      "https://github.com/octo/cat/pull/5" := by
  constructor <;> decide

/-- C1 (amended): for the scenario input, `parse_jules_email` returns
status `"completed"`, title `"Task completed for your PR"`,
repo `"octo/cat."` (with the trailing period), summary equal to the
entity-decoded snippet (length ≤ 300), and link `""` (the link fallback
scans only the empty normalized body). -/
theorem claim_C1 :
    parse_jules_email (fun _ => none) (fun _ => none) c1_email =
      { status := "completed"
        title := "Task completed for your PR"
        repo := "octo/cat."
        summary := "Your task finished successfully. Repository: octo/cat. See https://github.com/octo/cat/pull/5"
        link := ""
        raw_subject := "[Jules] Task completed for your PR" } := by
  decide

/-- C2 fails as stated: the scanning text of this email holds a matching URL
(the first conjunct evaluates the claimed fallback on the scanning text and
finds it), yet the parser returns an empty link, because `_extract_jules_link`
is called on the normalized body, not the scanning text. -/
theorem claim_C2_counterexample :
    (findAll urlPattern (pyLower "See https://github.com/octo/cat/pull/7  ").data).find?
        (fun u => linkPred ⟨u⟩) = some ("https://github.com/octo/cat/pull/7").data ∧
    (parse_jules_email (fun _ => none) (fun _ => none)
        ⟨"See https://github.com/octo/cat/pull/7", "", "", ""⟩).link = "" := by
  constructor <;> rfl

/-- C2 (amended): the text-based fallback of the link extractor scans only the
normalized body text — the link field of an email with empty `bodyHtml`
depends only on `bodyText` — returning the first URL-pattern match containing
"jules" or "github.com" in left-to-right order; a matching URL present only
in the snippet (or subject) is not found. -/
theorem claim_C2 :
    (∀ (ht : String → Option String) (hl : String → Option (List String))
        (subject snippet body_text : String),
        (parse_jules_email ht hl ⟨subject, snippet, "", body_text⟩).link =
          extract_jules_link hl "" body_text) ∧
    extract_jules_link (fun _ => none) ""
        "a https://x.co/1 then https://github.com/a/b and https://jules.io/t" =
      "https://github.com/a/b" ∧
    (parse_jules_email (fun _ => none) (fun _ => none)
        ⟨"", "https://github.com/c/d", "", ""⟩).link = "" := by
  refine ⟨fun ht hl subject snippet body_text => rfl, rfl, rfl⟩

/-- C3 fails as stated: on the stacked subject the code removes both leading
product tags (the three substitutions run in sequence), not only the first
one. -/
theorem claim_C3_counterexample :
    clean_subject "[Jules] Jules: fix the build" = "fix the build" ∧
    clean_subject "[Jules] Jules: fix the build" ≠ "Jules: fix the build" := by
  constructor <;> decide

/-- C3 (amended): `_clean_subject` applies the three case-insensitive
substitutions in sequence — bracketed tag, `"Jules:"` label, dash/colon
`"Google Jules"` label — each removing at most one leading occurrence, so
stacked prefixes are each removed in turn; the result is trimmed and is never
empty, the fixed fallback literal `"Jules Notification"` standing in for an
empty result. -/
theorem claim_C3 :
    (∀ s : String, 0 < (clean_subject s).length) ∧
    clean_subject "[Jules] Fix the build" = "Fix the build" ∧
    clean_subject "Jules: fix the build" = "fix the build" ∧
    clean_subject "Google Jules - fix the build" = "fix the build" ∧
    clean_subject "[Jules] Jules: Google Jules - fix the build" = "fix the build" ∧
    clean_subject "   " = "Jules Notification" := by
  refine ⟨?_, by decide, by decide, by decide, by decide, by decide⟩
  intro s
  dsimp only [clean_subject]
  split
  next h => decide
  next h => exact length_pos_of_ne_empty _ h

/-- C6 fails as stated: this scanning text holds the label
`"repository: acme/widgets"` and the different URL `github.com/other/proj`,
yet the extractor returns `"github.com/other"`: the word `"repo"` followed by
a space also matches the label pattern `(?:repository|repo)[:\s]+`, and its
leftmost occurrence precedes the real label. -/
theorem claim_C6_counterexample :
    extract_repo "repo github.com/other/proj repository: acme/widgets" "" =
      "github.com/other" ∧
    extract_repo "repo github.com/other/proj repository: acme/widgets" "" ≠
      "acme/widgets" := by
  constructor <;> decide

/-- C6 (amended): the label pattern is tried before the github.com URL
pattern: whenever it matches anywhere in the scanning text, `_extract_repo`
returns the capture of its leftmost match (which is the labelled token when no
earlier `repo`-word juxtaposition matches); in particular, in the spec's
scenario the labelled token wins even when a github.com URL precedes it. -/
theorem claim_C6 :
    (∀ (text subject : String) (g : List Char),
        groupSearch repoLabelItems repoGroup [] text.data = some g →
        extract_repo text subject = ⟨g⟩) ∧
    extract_repo "github.com/other/proj and repository: acme/widgets" "" =
      "acme/widgets" := by
  constructor
  · intro text subject g h
    unfold extract_repo
    simp only [repo_patterns, List.map_cons, List.map_nil]
    rw [h]
    rfl
  · decide

/-- C6 witness: the general label-first rule applied to a concrete scanning
text. -/
theorem claim_C6_witness :
    groupSearch repoLabelItems repoGroup [] ("repository: acme/widgets").data =
      some ("acme/widgets").data ∧
    extract_repo "repository: acme/widgets" "x" = ⟨("acme/widgets").data⟩ :=
  ⟨by decide,
   claim_C6.1 "repository: acme/widgets" "x" ("acme/widgets").data (by decide)⟩

/-- The six values `_detect_status` can return: the five category names in
declared order, or `"unknown"`. -/
theorem detect_status_mem (text : String) :
    detect_status text ∈ STATUS_ORDER ++ ["unknown"] := by
  have h := detectFromScores_mem (STATUS_PATTERNS.map (fun e => (e.1, catScore e.2 text.data)))
  unfold detect_status
  rcases h with h | h
  · rw [h]
    decide
  · have hnames :
        (STATUS_PATTERNS.map (fun e => (e.1, catScore e.2 text.data))).map (·.1) =
          STATUS_ORDER := rfl
    rw [hnames] at h
    exact List.mem_append_left _ h

/-- C5: `assemble` is total — for every choice of the markup oracles and every
`RawEmail` (all fields arbitrary), `parse_jules_email` returns a
fully-populated record (verbatim raw subject, a status among the six
categories, a summary of at most 300 characters), and markup-parse failures
are swallowed: a failing text extraction degrades `_html_to_text` to the raw
html, and when both oracles fail the result coincides with the
always-failing-parser run. -/
theorem claim_C5 (ht : String → Option String) (hl : String → Option (List String))
    (e : RawEmail) :
    (parse_jules_email ht hl e).raw_subject = e.subject ∧
    (parse_jules_email ht hl e).status ∈
      ["completed", "failed", "needs_review", "in_progress", "cancelled", "unknown"] ∧
    (parse_jules_email ht hl e).summary.length ≤ 300 ∧
    (ht e.body_html = none → html_to_text ht e.body_html = e.body_html) ∧
    (ht e.body_html = none → hl e.body_html = none →
      parse_jules_email ht hl e = parse_jules_email (fun _ => none) (fun _ => none) e) := by
  refine ⟨rfl, detect_status_mem _, build_summary_length_le _ _, ?_, ?_⟩
  · intro h
    unfold html_to_text
    rw [h]
  · intro h1 h2
    dsimp only [parse_jules_email]
    have hbp : (if e.body_html ≠ "" then html_to_text ht e.body_html else e.body_text) =
        (if e.body_html ≠ "" then html_to_text (fun _ => none) e.body_html else e.body_text) := by
      split
      · unfold html_to_text
        rw [h1]
      · rfl
    rw [hbp]
    have hlink : ∀ X, extract_jules_link hl e.body_html X =
        extract_jules_link (fun _ => none) e.body_html X := by
      intro X
      dsimp only [extract_jules_link]
      rw [h2]
    rw [hlink]

/-- C5 witness: totality and failure-swallowing at a concrete email whose
markup parsing fails. -/
theorem claim_C5_witness :
    (parse_jules_email (fun _ => none) (fun _ => none) ⟨"s", "n", "<p>x</p>", "b"⟩).raw_subject
        = "s" ∧
    (parse_jules_email (fun _ => none) (fun _ => none) ⟨"s", "n", "<p>x</p>", "b"⟩).status ∈
      ["completed", "failed", "needs_review", "in_progress", "cancelled", "unknown"] ∧
    (parse_jules_email (fun _ => none) (fun _ => none) ⟨"s", "n", "<p>x</p>", "b"⟩).summary.length
        ≤ 300 ∧
    html_to_text (fun _ => none) "<p>x</p>" = "<p>x</p>" ∧
    parse_jules_email (fun _ => none) (fun _ => none) ⟨"s", "n", "<p>x</p>", "b"⟩ =
      parse_jules_email (fun _ => none) (fun _ => none) ⟨"s", "n", "<p>x</p>", "b"⟩ := by
  have h := claim_C5 (fun _ => none) (fun _ => none) ⟨"s", "n", "<p>x</p>", "b"⟩
  exact ⟨h.1, h.2.1, h.2.2.1, h.2.2.2.1 rfl, h.2.2.2.2 rfl rfl⟩

/-- C4: tie-break determinism of `_detect_status` — whenever two distinct
categories tie on a positive score and every other category scores strictly
below them, the category earlier in the declared order
completed, failed, needs_review, in_progress, cancelled wins (Python's
`max(scores, key=scores.get)` keeps the first maximal entry of the
insertion-ordered dict); and when no category has a positive score the result
is `"unknown"`. -/
theorem claim_C4 :
    (∀ (text c1 c2 : String),
        c1 ∈ STATUS_ORDER → c2 ∈ STATUS_ORDER →
        STATUS_ORDER.indexOf c1 < STATUS_ORDER.indexOf c2 →
        statusScore c1 text = statusScore c2 text →
        0 < statusScore c1 text →
        (∀ c ∈ STATUS_ORDER, c ≠ c1 → c ≠ c2 → statusScore c text < statusScore c1 text) →
        detect_status text = c1) ∧
    (∀ text : String, (∀ c ∈ STATUS_ORDER, statusScore c text = 0) →
        detect_status text = "unknown") := by
  constructor
  · intro text c1 c2 hm1 hm2 hidx heq hpos hlt
    have hm1' : c1 = "completed" ∨ c1 = "failed" ∨ c1 = "needs_review" ∨
        c1 = "in_progress" ∨ c1 = "cancelled" := by simpa [STATUS_ORDER] using hm1
    have hm2' : c2 = "completed" ∨ c2 = "failed" ∨ c2 = "needs_review" ∨
        c2 = "in_progress" ∨ c2 = "cancelled" := by simpa [STATUS_ORDER] using hm2
    rcases hm1' with rfl | rfl | rfl | rfl | rfl <;> rcases hm2' with rfl | rfl | rfl | rfl | rfl
    all_goals try exact absurd hidx (by decide)
    · exact detectFromScores_split []
        [("failed", statusScore "failed" text),
         ("needs_review", statusScore "needs_review" text),
         ("in_progress", statusScore "in_progress" text),
         ("cancelled", statusScore "cancelled" text)]
        "completed" (statusScore "completed" text) hpos
        (by intro e he; exact absurd he (List.not_mem_nil e))
        (by
          intro e he
          simp only [List.mem_cons, List.not_mem_nil, or_false] at he
          rcases he with rfl | rfl | rfl | rfl
          · exact le_of_eq heq.symm
          · exact le_of_lt (hlt "needs_review" (by decide) (by decide) (by decide))
          · exact le_of_lt (hlt "in_progress" (by decide) (by decide) (by decide))
          · exact le_of_lt (hlt "cancelled" (by decide) (by decide) (by decide)))
    · exact detectFromScores_split []
        [("failed", statusScore "failed" text),
         ("needs_review", statusScore "needs_review" text),
         ("in_progress", statusScore "in_progress" text),
         ("cancelled", statusScore "cancelled" text)]
        "completed" (statusScore "completed" text) hpos
        (by intro e he; exact absurd he (List.not_mem_nil e))
        (by
          intro e he
          simp only [List.mem_cons, List.not_mem_nil, or_false] at he
          rcases he with rfl | rfl | rfl | rfl
          · exact le_of_lt (hlt "failed" (by decide) (by decide) (by decide))
          · exact le_of_eq heq.symm
          · exact le_of_lt (hlt "in_progress" (by decide) (by decide) (by decide))
          · exact le_of_lt (hlt "cancelled" (by decide) (by decide) (by decide)))
    · exact detectFromScores_split []
        [("failed", statusScore "failed" text),
         ("needs_review", statusScore "needs_review" text),
         ("in_progress", statusScore "in_progress" text),
         ("cancelled", statusScore "cancelled" text)]
        "completed" (statusScore "completed" text) hpos
        (by intro e he; exact absurd he (List.not_mem_nil e))
        (by
          intro e he
          simp only [List.mem_cons, List.not_mem_nil, or_false] at he
          rcases he with rfl | rfl | rfl | rfl
          · exact le_of_lt (hlt "failed" (by decide) (by decide) (by decide))
          · exact le_of_lt (hlt "needs_review" (by decide) (by decide) (by decide))
          · exact le_of_eq heq.symm
          · exact le_of_lt (hlt "cancelled" (by decide) (by decide) (by decide)))
    · exact detectFromScores_split []
        [("failed", statusScore "failed" text),
         ("needs_review", statusScore "needs_review" text),
         ("in_progress", statusScore "in_progress" text),
         ("cancelled", statusScore "cancelled" text)]
        "completed" (statusScore "completed" text) hpos
        (by intro e he; exact absurd he (List.not_mem_nil e))
        (by
          intro e he
          simp only [List.mem_cons, List.not_mem_nil, or_false] at he
          rcases he with rfl | rfl | rfl | rfl
          · exact le_of_lt (hlt "failed" (by decide) (by decide) (by decide))
          · exact le_of_lt (hlt "needs_review" (by decide) (by decide) (by decide))
          · exact le_of_lt (hlt "in_progress" (by decide) (by decide) (by decide))
          · exact le_of_eq heq.symm)
    · exact detectFromScores_split
        [("completed", statusScore "completed" text)]
        [("needs_review", statusScore "needs_review" text),
         ("in_progress", statusScore "in_progress" text),
         ("cancelled", statusScore "cancelled" text)]
        "failed" (statusScore "failed" text) hpos
        (by
          intro e he
          simp only [List.mem_cons, List.not_mem_nil, or_false] at he
          rcases he with rfl
          exact hlt "completed" (by decide) (by decide) (by decide))
        (by
          intro e he
          simp only [List.mem_cons, List.not_mem_nil, or_false] at he
          rcases he with rfl | rfl | rfl
          · exact le_of_eq heq.symm
          · exact le_of_lt (hlt "in_progress" (by decide) (by decide) (by decide))
          · exact le_of_lt (hlt "cancelled" (by decide) (by decide) (by decide)))
    · exact detectFromScores_split
        [("completed", statusScore "completed" text)]
        [("needs_review", statusScore "needs_review" text),
         ("in_progress", statusScore "in_progress" text),
         ("cancelled", statusScore "cancelled" text)]
        "failed" (statusScore "failed" text) hpos
        (by
          intro e he
          simp only [List.mem_cons, List.not_mem_nil, or_false] at he
          rcases he with rfl
          exact hlt "completed" (by decide) (by decide) (by decide))
        (by
          intro e he
          simp only [List.mem_cons, List.not_mem_nil, or_false] at he
          rcases he with rfl | rfl | rfl
          · exact le_of_lt (hlt "needs_review" (by decide) (by decide) (by decide))
          · exact le_of_eq heq.symm
          · exact le_of_lt (hlt "cancelled" (by decide) (by decide) (by decide)))
    · exact detectFromScores_split
        [("completed", statusScore "completed" text)]
        [("needs_review", statusScore "needs_review" text),
         ("in_progress", statusScore "in_progress" text),
         ("cancelled", statusScore "cancelled" text)]
        "failed" (statusScore "failed" text) hpos
        (by
          intro e he
          simp only [List.mem_cons, List.not_mem_nil, or_false] at he
          rcases he with rfl
          exact hlt "completed" (by decide) (by decide) (by decide))
        (by
          intro e he
          simp only [List.mem_cons, List.not_mem_nil, or_false] at he
          rcases he with rfl | rfl | rfl
          · exact le_of_lt (hlt "needs_review" (by decide) (by decide) (by decide))
          · exact le_of_lt (hlt "in_progress" (by decide) (by decide) (by decide))
          · exact le_of_eq heq.symm)
    · exact detectFromScores_split
        [("completed", statusScore "completed" text),
         ("failed", statusScore "failed" text)]
        [("in_progress", statusScore "in_progress" text),
         ("cancelled", statusScore "cancelled" text)]
        "needs_review" (statusScore "needs_review" text) hpos
        (by
          intro e he
          simp only [List.mem_cons, List.not_mem_nil, or_false] at he
          rcases he with rfl | rfl
          · exact hlt "completed" (by decide) (by decide) (by decide)
          · exact hlt "failed" (by decide) (by decide) (by decide))
        (by
          intro e he
          simp only [List.mem_cons, List.not_mem_nil, or_false] at he
          rcases he with rfl | rfl
          · exact le_of_eq heq.symm
          · exact le_of_lt (hlt "cancelled" (by decide) (by decide) (by decide)))
    · exact detectFromScores_split
        [("completed", statusScore "completed" text),
         ("failed", statusScore "failed" text)]
        [("in_progress", statusScore "in_progress" text),
         ("cancelled", statusScore "cancelled" text)]
        "needs_review" (statusScore "needs_review" text) hpos
        (by
          intro e he
          simp only [List.mem_cons, List.not_mem_nil, or_false] at he
          rcases he with rfl | rfl
          · exact hlt "completed" (by decide) (by decide) (by decide)
          · exact hlt "failed" (by decide) (by decide) (by decide))
        (by
          intro e he
          simp only [List.mem_cons, List.not_mem_nil, or_false] at he
          rcases he with rfl | rfl
          · exact le_of_lt (hlt "in_progress" (by decide) (by decide) (by decide))
          · exact le_of_eq heq.symm)
    · exact detectFromScores_split
        [("completed", statusScore "completed" text),
         ("failed", statusScore "failed" text),
         ("needs_review", statusScore "needs_review" text)]
        [("cancelled", statusScore "cancelled" text)]
        "in_progress" (statusScore "in_progress" text) hpos
        (by
          intro e he
          simp only [List.mem_cons, List.not_mem_nil, or_false] at he
          rcases he with rfl | rfl | rfl
          · exact hlt "completed" (by decide) (by decide) (by decide)
          · exact hlt "failed" (by decide) (by decide) (by decide)
          · exact hlt "needs_review" (by decide) (by decide) (by decide))
        (by
          intro e he
          simp only [List.mem_cons, List.not_mem_nil, or_false] at he
          rcases he with rfl
          exact le_of_eq heq.symm)
  · intro text h
    have hC := h "completed" (by decide)
    have hF := h "failed" (by decide)
    have hN := h "needs_review" (by decide)
    have hI := h "in_progress" (by decide)
    have hX := h "cancelled" (by decide)
    show detectFromScores
        [("completed", statusScore "completed" text),
         ("failed", statusScore "failed" text),
         ("needs_review", statusScore "needs_review" text),
         ("in_progress", statusScore "in_progress" text),
         ("cancelled", statusScore "cancelled" text)] = "unknown"
    rw [hC, hF, hN, hI, hX]
    decide

/-- C4 witness: a concrete completed/failed tie resolved to `"completed"`, and
a no-match text resolved to `"unknown"`. -/
theorem claim_C4_witness :
    detect_status "completed failed" = "completed" ∧ detect_status "" = "unknown" := by
  constructor
  · exact claim_C4.1 "completed failed" "completed" "failed" (by decide) (by decide)
      (by decide) (by decide) (by decide) (by decide)
  · exact claim_C4.2 "" (by decide)

end JulesNotif
